import Mathlib

/-!
Verification development for the n8n-cleaner video service
(`src/main.py`, `src/merge_helper.py`).

The development shallowly embeds the daily video-merge pipeline:
* date handling (`datetime.strptime("%Y-%m-%d")` / `strftime("%Y-%m-%d")`,
  `timedelta(days=1)` subtraction),
* the filename date regex `(\d{4}-\d{2}-\d{2})` used with `re.search`,
* candidate discovery and ordering (`rglob`, extension allow-list,
  `sort(key=lambda x: x.name)`),
* the two merge strategies `merge_videos_fast` / `merge_videos_sync`
  (scratch concat-manifest lifecycle, ffmpeg call outcome, output file),
* the HTTP handlers `merge_today_videos` and `get_yesterday_files`.

External effects (the file system, the ffmpeg subprocess, exceptions
raised by the OS) are modelled by explicit oracle inputs and explicit
state threading.  Python `\d` is modelled as ASCII digits and `.lower()`
as ASCII lowering; the filenames relevant to the endpoints are ASCII.
Float rounding (`round(x, 2)`) is modelled as ideal decimal half-even
rounding over `ℚ`; no claim below depends on those rounded values.
-/

/-- A calendar date, the (year, month, day) part of a Python `datetime`. -/
structure Date where
  y : Nat
  m : Nat
  d : Nat
  deriving DecidableEq, Repr

/-- Gregorian leap-year rule, as implemented by Python `datetime`. -/
def isLeap (y : Nat) : Bool :=
  (y % 4 == 0 && y % 100 != 0) || y % 400 == 0

/-- Number of days in a month, as implemented by Python `datetime`. -/
def daysInMonth (y m : Nat) : Nat :=
  if m == 2 then (if isLeap y then 29 else 28)
  else if m == 4 || m == 6 || m == 9 || m == 11 then 30
  else 31

/-- The dates representable by Python `datetime` (year 1..9999), with a
calendar-valid month and day. -/
def ValidDate (dt : Date) : Prop :=
  1 ≤ dt.y ∧ dt.y ≤ 9999 ∧ 1 ≤ dt.m ∧ dt.m ≤ 12 ∧ 1 ≤ dt.d ∧ dt.d ≤ daysInMonth dt.y dt.m

instance : DecidablePred ValidDate := fun dt => by
  unfold ValidDate
  infer_instance

/-- The ASCII digit character for `n % 10`. -/
def digitChar (n : Nat) : Char := Char.ofNat (48 + n % 10)

/-- Two-digit zero-padded decimal rendering (`%m`, `%d` of `strftime`,
for values below 100). -/
def pad2 (n : Nat) : List Char := [digitChar (n / 10), digitChar n]

/-- Four-digit zero-padded decimal rendering (`%Y` of `strftime`, for
values below 10000). -/
def pad4 (n : Nat) : List Char :=
  [digitChar (n / 1000), digitChar (n / 100), digitChar (n / 10), digitChar n]

/-- Python `date.strftime("%Y-%m-%d")`. -/
def fmtDate (dt : Date) : String :=
  String.mk (pad4 dt.y ++ '-' :: pad2 dt.m ++ '-' :: pad2 dt.d)

/-- Split a character list on a separator character, like Python
`str.split(sep)` for a one-character separator. -/
def splitOnChar (sep : Char) : List Char → List (List Char)
  | [] => [[]]
  | c :: rest =>
    let r := splitOnChar sep rest
    if c = sep then [] :: r
    else
      match r with
      | h :: t => (c :: h) :: t
      | [] => [[c]]

/-- Numeric value of a list of ASCII digit characters. -/
def toNatDigits (l : List Char) : Nat :=
  l.foldl (fun a c => a * 10 + (c.toNat - 48)) 0

/-- Python `datetime.strptime(s, "%Y-%m-%d")`, returning `none` where
CPython raises `ValueError`.  CPython's `_strptime` matches `%Y` as
exactly four digits, `%m` and `%d` as one or two digits (month 1..12, day
1..31 by regex), requires the whole string to be consumed, and then
`datetime` construction validates the day against the month length and
the year against `MINYEAR = 1`.  Note the parse is deliberately lenient:
`"2024-5-1"` is accepted. -/
def strptimeYmd (s : String) : Option Date :=
  match splitOnChar '-' s.toList with
  | [ys, ms, ds] =>
    if ys.length = 4 ∧ ys.all Char.isDigit = true
        ∧ 1 ≤ ms.length ∧ ms.length ≤ 2 ∧ ms.all Char.isDigit = true
        ∧ 1 ≤ ds.length ∧ ds.length ≤ 2 ∧ ds.all Char.isDigit = true then
      let y := toNatDigits ys
      let m := toNatDigits ms
      let d := toNatDigits ds
      if 1 ≤ y ∧ 1 ≤ m ∧ m ≤ 12 ∧ 1 ≤ d ∧ d ≤ daysInMonth y m then some ⟨y, m, d⟩
      else none
    else none
  | _ => none

/-- `current_date - timedelta(days=1)`: the previous calendar day.
Returns `none` for year 1, Jan 1, where Python raises `OverflowError`. -/
def predDate (dt : Date) : Option Date :=
  if 1 < dt.d then some ⟨dt.y, dt.m, dt.d - 1⟩
  else if 1 < dt.m then some ⟨dt.y, dt.m - 1, daysInMonth dt.y (dt.m - 1)⟩
  else if 1 < dt.y then some ⟨dt.y - 1, 12, 31⟩
  else none

/-- One attempt of the regex `\d{4}-\d{2}-\d{2}` anchored at the head of
the list: the match (ten characters) if the head matches the pattern. -/
def dateShape : List Char → Option (List Char)
  | c1 :: c2 :: c3 :: c4 :: '-' :: c5 :: c6 :: '-' :: c7 :: c8 :: _ =>
    if c1.isDigit && c2.isDigit && c3.isDigit && c4.isDigit
        && c5.isDigit && c6.isDigit && c7.isDigit && c8.isDigit then
      some [c1, c2, c3, c4, '-', c5, c6, '-', c7, c8]
    else none
  | _ => none

/-- Leftmost match of `\d{4}-\d{2}-\d{2}`, i.e. `re.search` semantics:
try each start position from the left. -/
def searchDate : List Char → Option (List Char)
  | [] => none
  | c :: rest =>
    match dateShape (c :: rest) with
    | some m => some m
    | none => searchDate rest

/-- `re.search(r"(\d{4}-\d{2}-\d{2})", s)` followed by `.group(1)`:
the first substring of `s` matching the date pattern, if any.  This is
`DateFilenameMatcher.extract` of the spec. -/
def date_pattern_search (s : String) : Option String :=
  (searchDate s.toList).map String.mk

/-- `DateFilenameMatcher.matches`: in the code, `match.group(1)` is
compared (as a string) with `target.strftime("%Y-%m-%d")`. -/
def dateMatches (filename : String) (target : Date) : Bool :=
  date_pattern_search filename == some (fmtDate target)

/-- Split a character list around its last `'.'`:
`some (before, after)` if a dot occurs, `none` otherwise. -/
def splitLastDot : List Char → Option (List Char × List Char)
  | [] => none
  | c :: rest =>
    match splitLastDot rest with
    | some (b, a) => some (c :: b, a)
    | none => if c = '.' then some ([], rest) else none

/-- Python `pathlib.PurePath.suffix` of a file name: the part from the
last dot, unless the dot is the first or the last character. -/
def pySuffix (name : String) : String :=
  match splitLastDot name.toList with
  | some (b, a) => if b ≠ [] ∧ a ≠ [] then String.mk ('.' :: a) else ""
  | none => ""

/-- ASCII `str.lower()`. -/
def lowerStr (s : String) : String := String.mk (s.toList.map Char.toLower)

/-- The allow-list of video extensions in `merge_today_videos`. -/
def video_extensions : List String :=
  [".mp4", ".avi", ".mov", ".mkv", ".flv", ".wmv", ".webm"]

/-- Codepoint-lexicographic comparison of character lists: Python's
`str` comparison, the order used by `list.sort(key=...)` on names. -/
def lexLe : List Char → List Char → Bool
  | [], _ => true
  | _ :: _, [] => false
  | a :: as, b :: bs =>
    if a.toNat < b.toNat then true
    else if b.toNat < a.toNat then false
    else lexLe as bs

/-- Python `a <= b` on strings: codepoint-lexicographic, ascending. -/
def strLe (a b : String) : Bool := lexLe a.toList b.toList

/-- The order `strLe` as a relation on strings. -/
def sLe (a b : String) : Prop := strLe a b = true

instance : DecidableRel sLe := fun a b =>
  inferInstanceAs (Decidable (strLe a b = true))

/-- A file discovered under the source root: its path relative to the
root (unique per file, forward slashes), its final component `name`, and
its `stat` data. -/
structure Entry where
  path : String
  name : String
  size : Nat
  mtime : Nat
  deriving DecidableEq, Repr

/-- The per-file test of the discovery loop of `merge_today_videos`:
`item.suffix.lower() in video_extensions` and the first date-pattern
match of the file name equals `today_str`. -/
def isVideoFile (today : String) (e : Entry) : Bool :=
  video_extensions.contains (lowerStr (pySuffix e.name))
    && date_pattern_search e.name == some today

/-- Sort key order of `video_files.sort(key=lambda x: x.name)`:
codepoint-lexicographic comparison of the file names. -/
def entryLe (a b : Entry) : Prop := sLe a.name b.name

instance : DecidableRel entryLe := fun a b =>
  inferInstanceAs (Decidable (strLe a.name b.name = true))

/-- Candidate discovery followed by the sort: collect the files (in
file-system enumeration order) passing `isVideoFile`, then stable-sort
them by name.  `List.insertionSort` is a stable sort, like Python
`list.sort`. -/
def discoverCandidates (fs : List Entry) (today : String) : List Entry :=
  List.insertionSort entryLe (fs.filter (isVideoFile today))

/-- State of the temp directory: the id the next `NamedTemporaryFile`
will receive (fresh names never collide with live ones), and the ids of
the scratch manifest files currently on disk. -/
structure Scratch where
  nextId : Nat
  onDisk : List Nat
  deriving DecidableEq, Repr

/-- Which merge strategy wrote a file. -/
inductive Method
  | fast
  | sync
  deriving DecidableEq, Repr

/-- The file at `output_path`, when one exists: which strategy wrote it,
whether it is a complete merge product (as opposed to debris of a failed
ffmpeg run), and its size in bytes. -/
structure OutFile where
  writer : Method
  complete : Bool
  size : Nat
  deriving DecidableEq, Repr

/-- Oracle for one ffmpeg invocation: success writing `size` bytes, an
`ffmpeg.Error`, or some other exception raised during the run.  On the
two failure outcomes, `leftover` tells what the failed subprocess left
at `output_path`: `some n` for an incomplete file of `n` bytes,
`none` for the output state untouched. -/
inductive TranscodeOutcome
  | ok (size : Nat)
  | ffmpegErr (msg : String) (leftover : Option Nat)
  | raised (msg : String) (leftover : Option Nat)
  deriving DecidableEq, Repr

/-- Oracle for one strategy invocation: whether `NamedTemporaryFile`
creation raises (before any file exists), whether writing the manifest
entries raises (after the file was created with `delete=False`), and the
ffmpeg outcome. -/
structure StratEnv where
  createRaises : Option String
  writeRaises : Option String
  transcode : TranscodeOutcome
  deriving DecidableEq, Repr

/-- Ideal decimal half-even rounding to an integer (the rounding of
Python `round`, ignoring binary floating-point representation). -/
def roundHalfEven (q : ℚ) : ℤ :=
  let f := ⌊q⌋
  let r := q - f
  if r < 1 / 2 then f
  else if 1 / 2 < r then f + 1
  else if f % 2 = 0 then f else f + 1

/-- Python `round(q, 2)` on an exact rational. -/
def round2q (q : ℚ) : ℚ := (roundHalfEven (q * 100) : ℚ) / 100

/-- The `dict` returned by `merge_videos_fast` / `merge_videos_sync`:
either `{"status": "success", "message", "output_file", "output_size",
"output_size_mb"}` or `{"status": "error", "message"}`. -/
inductive StratResult
  | ok (message output_file : String) (output_size : Nat) (output_size_mb : ℚ)
  | err (message : String)
  deriving DecidableEq, Repr

/-- `result["status"] == "error"`. -/
def StratResult.isError : StratResult → Bool
  | .ok _ _ _ _ => false
  | .err _ => true

/-- The `message` field of the result dict. -/
def StratResult.message : StratResult → String
  | .ok m _ _ _ => m
  | .err m => m

/-- `pathlib.Path(p).name`: the final path component. -/
def basename (p : String) : String :=
  match (splitOnChar '/' p.toList).getLast? with
  | some l => String.mk l
  | none => p

/-- Output state left by a failed ffmpeg run. -/
def errOutput (m : Method) (leftover : Option Nat) (out : Option OutFile) :
    Option OutFile :=
  match leftover with
  | some n => some ⟨m, false, n⟩
  | none => out

/-- Shallow embedding of `merge_helper.merge_videos_fast` (the FastCopy
strategy).  Mirrors the source structure: an outer `try/except` around
manifest creation and writing, and an inner `try/finally` that runs
ffmpeg (concat demuxer, `c="copy"`, `overwrite_output`) and
unconditionally unlinks the manifest (`missing_ok=True`).  An exception
while writing the manifest entries is caught by the outer `except`
without passing through the inner `finally`, so the manifest file
(created with `delete=False`) stays on disk in that case. -/
def merge_videos_fast (env : StratEnv) (video_files : List Entry)
    (output_path : String) (scr : Scratch) (out : Option OutFile) :
    StratResult × Scratch × Option OutFile :=
  match env.createRaises with
  | some m => (.err ("Unexpected error: " ++ m), scr, out)
  | none =>
    let id := scr.nextId
    let scr1 : Scratch := ⟨id + 1, id :: scr.onDisk⟩
    match env.writeRaises with
    | some m => (.err ("Unexpected error: " ++ m), scr1, out)
    | none =>
      match env.transcode with
      | .ok size =>
        (.ok ("Successfully merged " ++ toString video_files.length
              ++ " videos (FAST mode - no re-encoding)")
          (basename output_path) size (round2q ((size : ℚ) / 1024 / 1024)),
          ⟨scr1.nextId, scr1.onDisk.erase id⟩, some ⟨.fast, true, size⟩)
      | .ffmpegErr m leftover =>
        (.err ("FFmpeg fast merge error: " ++ m),
          ⟨scr1.nextId, scr1.onDisk.erase id⟩, errOutput .fast leftover out)
      | .raised m leftover =>
        (.err ("Unexpected error: " ++ m),
          ⟨scr1.nextId, scr1.onDisk.erase id⟩, errOutput .fast leftover out)

/-- Shallow embedding of `main.merge_videos_sync` (the ReencodeFallback
strategy).  Identical control structure to `merge_videos_fast`; the
ffmpeg invocation re-encodes (scale/pad to 1920x1080, libx264 ultrafast
crf 23, aac 128k, `overwrite_output`) and the messages differ. -/
def merge_videos_sync (env : StratEnv) (video_files : List Entry)
    (output_path : String) (scr : Scratch) (out : Option OutFile) :
    StratResult × Scratch × Option OutFile :=
  match env.createRaises with
  | some m => (.err ("Unexpected error: " ++ m), scr, out)
  | none =>
    let id := scr.nextId
    let scr1 : Scratch := ⟨id + 1, id :: scr.onDisk⟩
    match env.writeRaises with
    | some m => (.err ("Unexpected error: " ++ m), scr1, out)
    | none =>
      match env.transcode with
      | .ok size =>
        (.ok ("Successfully merged " ++ toString video_files.length ++ " videos")
          (basename output_path) size (round2q ((size : ℚ) / 1024 / 1024)),
          ⟨scr1.nextId, scr1.onDisk.erase id⟩, some ⟨.sync, true, size⟩)
      | .ffmpegErr m leftover =>
        (.err ("FFmpeg error: " ++ m),
          ⟨scr1.nextId, scr1.onDisk.erase id⟩, errOutput .sync leftover out)
      | .raised m leftover =>
        (.err ("Unexpected error: " ++ m),
          ⟨scr1.nextId, scr1.onDisk.erase id⟩, errOutput .sync leftover out)

/-- A strategy invocation recorded by the orchestrator: which strategy,
the input paths in order, and the output path. -/
structure Invocation where
  method : Method
  inputs : List String
  output : String
  deriving DecidableEq, Repr

/-- The JSON body and HTTP status of a `merge-today` response.  Fields
absent from the JSON object are `none`. -/
structure MergeResponse where
  statusCode : Nat
  ok : Bool
  message : String
  today_date : Option String
  input_files : Option (List String)
  total_input_files : Option Nat
  output_file : Option String
  output_size : Option Nat
  output_size_mb : Option ℚ
  output_url : Option String
  deriving DecidableEq, Repr

/-- An error response of `merge_today_videos`: `{"status": "error",
"message": msg}` with the given HTTP status. -/
def errResponse (code : Nat) (msg : String) : MergeResponse :=
  ⟨code, false, msg, none, none, none, none, none, none, none⟩

/-- Oracles of one `merge_today_videos` run: the current date
(`datetime.now()`), whether the source root exists, whether the
discovery loop itself raises, and the per-strategy oracles. -/
structure PipelineEnv where
  nowDate : Date
  dirExists : Bool
  discoveryRaises : Option String
  fastEnv : StratEnv
  syncEnv : StratEnv
  deriving DecidableEq, Repr

/-- Mutable world state threaded through a run: temp directory and the
file at `output_path`. -/
structure RunState where
  scr : Scratch
  out : Option OutFile
  deriving DecidableEq, Repr

/-- Result of one `merge_today_videos` run: the HTTP response, the final
world state, and the trace of strategy invocations, in order. -/
structure RunOutcome where
  response : MergeResponse
  state : RunState
  trace : List Invocation
  deriving DecidableEq, Repr

def STATICFILES_DIR : String := "n8n_ffmpeg"

/-- The shared head of both endpoints: parse `date_now` if present
(`none` result means the endpoint answers 400), else `datetime.now()`. -/
def parseDateArg (date_now : Option String) (nowDate : Date) : Option Date :=
  match date_now with
  | some s => strptimeYmd s
  | none => some nowDate

/-- Shallow embedding of the tail of `merge_today_videos`: build the
200 response from a success dict, or the 500 response from an error
dict. -/
def finishResponse (today_str : String) (video_files : List Entry)
    (r : StratResult) (st : RunState) (tr : List Invocation) : RunOutcome :=
  match r with
  | .ok msg ofile osize omb =>
    ⟨⟨200, true, msg, some today_str, some (video_files.map Entry.name),
        some video_files.length, some ofile, some osize, some omb,
        some ("/static/" ++ ofile)⟩, st, tr⟩
  | .err msg => ⟨errResponse 500 msg, st, tr⟩

/-- Shallow embedding of the `GET /api/files/merge-today` handler
(`main.merge_today_videos`): parse the date (400 on failure), check the
source root (404), discover and sort candidates (404 when none), run
FastCopy, fall back to Reencode exactly when the fast result has
`status == "error"`, and answer 200 or 500 from the final result.  An
exception raised by the discovery loop is caught by the handler's outer
`except` and answered as 500. -/
def merge_today_videos (date_now : Option String) (fs : List Entry)
    (env : PipelineEnv) (st : RunState) : RunOutcome :=
  match parseDateArg date_now env.nowDate with
  | none => ⟨errResponse 400 "Invalid date format. Use YYYY-MM-DD", st, []⟩
  | some current_date =>
    let today_str := fmtDate current_date
    if !env.dirExists then
      ⟨errResponse 404 "n8n_ffmpeg folder not found", st, []⟩
    else
      match env.discoveryRaises with
      | some m => ⟨errResponse 500 m, st, []⟩
      | none =>
        let video_files := discoverCandidates fs today_str
        if video_files = [] then
          ⟨errResponse 404 ("No video files found for " ++ today_str), st, []⟩
        else
          let output_filename := today_str ++ ".mp4"
          let output_path := STATICFILES_DIR ++ "/" ++ output_filename
          let fastRun := merge_videos_fast env.fastEnv video_files output_path st.scr st.out
          let inv1 : Invocation := ⟨.fast, video_files.map Entry.path, output_path⟩
          if fastRun.1.isError then
            let syncRun :=
              merge_videos_sync env.syncEnv video_files output_path fastRun.2.1 fastRun.2.2
            let inv2 : Invocation := ⟨.sync, video_files.map Entry.path, output_path⟩
            finishResponse today_str video_files syncRun.1 ⟨syncRun.2.1, syncRun.2.2⟩
              [inv1, inv2]
          else
            finishResponse today_str video_files fastRun.1 ⟨fastRun.2.1, fastRun.2.2⟩ [inv1]

/-- One element of the `files` array of `GET /api/files/yesterday`. -/
structure YFile where
  name : String
  path : String
  date : String
  size : Nat
  size_kb : ℚ
  size_mb : ℚ
  modified : Nat
  deriving DecidableEq, Repr

/-- Sort key order of `yesterday_files.sort(key=lambda x: x["name"])`. -/
def yfileLe (a b : YFile) : Prop := sLe a.name b.name

instance : DecidableRel yfileLe := fun a b =>
  inferInstanceAs (Decidable (strLe a.name b.name = true))

/-- The JSON body and HTTP status of a `yesterday` response.  Fields
absent from the JSON object are `none`; the 400 response carries no
`files` field, the 404/500 responses carry `files: []`.  The `modified`
field of each file is carried as the raw mtime; the code formats it as a
local-time string, which is pure presentation and not modelled. -/
structure YesterdayResponse where
  statusCode : Nat
  ok : Bool
  message : Option String
  current_date : Option String
  yesterday_date : Option String
  total_files : Option Nat
  files : Option (List YFile)
  deriving DecidableEq, Repr

/-- The dict appended for one matching file.  The code stores
`match.group(1)` as `date`; under the filter that value equals
`yesterday_str`, which is what is passed here. -/
def mkYFile (ystr : String) (e : Entry) : YFile :=
  ⟨e.name, e.path, ystr, e.size, round2q ((e.size : ℚ) / 1024),
    round2q ((e.size : ℚ) / 1024 / 1024), e.mtime⟩

/-- Shallow embedding of the `GET /api/files/yesterday` handler
(`main.get_yesterday_files`): parse the date (400 on failure), subtract
one day (the `OverflowError` of year 1 Jan 1 is caught by the outer
`except` as 500, message `str(e)`), check the source root (404), keep
the files whose first date-pattern match equals yesterday, sort the
dicts by name, and answer 200. -/
def get_yesterday_files (date_now : Option String) (nowDate : Date)
    (dirExists : Bool) (fs : List Entry) : YesterdayResponse :=
  match parseDateArg date_now nowDate with
  | none => ⟨400, false, some "Invalid date format. Use YYYY-MM-DD", none, none, none, none⟩
  | some current_date =>
    match predDate current_date with
    | none => ⟨500, false, some "date value out of range", none, none, none, some []⟩
    | some yd =>
      let yesterday_str := fmtDate yd
      if !dirExists then
        ⟨404, false, some "n8n_ffmpeg folder not found", none, none, none, some []⟩
      else
        let matched := fs.filter (fun e => date_pattern_search e.name == some yesterday_str)
        let yesterday_files := List.insertionSort yfileLe (matched.map (mkYFile yesterday_str))
        ⟨200, true, none, some (fmtDate current_date), some yesterday_str,
          some yesterday_files.length, some yesterday_files⟩

/-- A ten-character `YYYY-MM-DD` token denoting a calendar-valid date. -/
def isValidDateToken (s : String) : Bool :=
  match s.toList with
  | [c1, c2, c3, c4, '-', c5, c6, '-', c7, c8] =>
    (c1.isDigit && c2.isDigit && c3.isDigit && c4.isDigit
        && c5.isDigit && c6.isDigit && c7.isDigit && c8.isDigit)
      && decide (ValidDate ⟨toNatDigits [c1, c2, c3, c4], toNatDigits [c5, c6],
          toNatDigits [c7, c8]⟩)
  | _ => false

/-- The strict textual form `YYYY-MM-DD`: four digits, dash, two
digits, dash, two digits, and nothing else. -/
def isStrictYmd (s : String) : Bool :=
  match s.toList with
  | [c1, c2, c3, c4, '-', c5, c6, '-', c7, c8] =>
    c1.isDigit && c2.isDigit && c3.isDigit && c4.isDigit
      && c5.isDigit && c6.isDigit && c7.isDigit && c8.isDigit
  | _ => false

/-- Whether a strategy invocation with oracle `env` returns a success
dict (`status == "success"`). -/
def stratSucceeds (env : StratEnv) : Bool :=
  env.createRaises == none && env.writeRaises == none
    && (match env.transcode with | .ok _ => true | _ => false)

/-! ### Order lemmas for the codepoint-lexicographic comparison -/

theorem charToNat_inj {a b : Char} (h : a.toNat = b.toNat) : a = b :=
  Char.eq_of_val_eq (UInt32.ext h)

theorem lexLe_total : ∀ a b : List Char, lexLe a b = true ∨ lexLe b a = true
  | [], _ => Or.inl rfl
  | _ :: _, [] => Or.inr rfl
  | a :: as, b :: bs => by
    simp only [lexLe]
    rcases Nat.lt_trichotomy a.toNat b.toNat with h | h | h
    · left
      simp [h]
    · have h1 : ¬ a.toNat < b.toNat := by omega
      have h2 : ¬ b.toNat < a.toNat := by omega
      simpa [h1, h2] using lexLe_total as bs
    · right
      simp [h]

theorem lexLe_refl : ∀ a : List Char, lexLe a a = true
  | [] => rfl
  | a :: as => by simp [lexLe, lexLe_refl as]

theorem lexLe_antisymm : ∀ a b : List Char, lexLe a b = true → lexLe b a = true → a = b
  | [], [], _, _ => rfl
  | [], _ :: _, _, h => by simp [lexLe] at h
  | _ :: _, [], h, _ => by simp [lexLe] at h
  | a :: as, b :: bs, h1, h2 => by
    simp only [lexLe] at h1 h2
    rcases Nat.lt_trichotomy a.toNat b.toNat with h | h | h
    · have hn : ¬ b.toNat < a.toNat := by omega
      simp [h, hn] at h2
    · have h3 : ¬ a.toNat < b.toNat := by omega
      have h4 : ¬ b.toNat < a.toNat := by omega
      simp only [h3, h4, if_false] at h1 h2
      rw [charToNat_inj h, lexLe_antisymm as bs h1 h2]
    · have hn : ¬ a.toNat < b.toNat := by omega
      simp [h, hn] at h1

theorem lexLe_trans : ∀ a b c : List Char, lexLe a b = true → lexLe b c = true → lexLe a c = true
  | [], _, _, _, _ => rfl
  | _ :: _, [], _, h, _ => by simp [lexLe] at h
  | _ :: _, _ :: _, [], _, h => by simp [lexLe] at h
  | a :: as, b :: bs, c :: cs, h1, h2 => by
    simp only [lexLe] at h1 h2 ⊢
    rcases Nat.lt_trichotomy a.toNat b.toNat with hab | hab | hab <;>
      rcases Nat.lt_trichotomy b.toNat c.toNat with hbc | hbc | hbc
    · simp [show a.toNat < c.toNat by omega]
    · simp [show a.toNat < c.toNat by omega]
    · simp [show ¬ b.toNat < c.toNat by omega, hbc] at h2
    · simp [show a.toNat < c.toNat by omega]
    · have g1 : ¬ a.toNat < b.toNat := by omega
      have g2 : ¬ b.toNat < a.toNat := by omega
      have g3 : ¬ b.toNat < c.toNat := by omega
      have g4 : ¬ c.toNat < b.toNat := by omega
      simp only [g1, g2, g3, g4, if_false] at h1 h2
      simp only [show ¬ a.toNat < c.toNat by omega, show ¬ c.toNat < a.toNat by omega, if_false]
      exact lexLe_trans as bs cs h1 h2
    · simp [show ¬ b.toNat < c.toNat by omega, hbc] at h2
    · simp [hab, show ¬ a.toNat < b.toNat by omega] at h1
    · simp [hab, show ¬ a.toNat < b.toNat by omega] at h1
    · simp [hab, show ¬ a.toNat < b.toNat by omega] at h1

theorem strLe_total (a b : String) : strLe a b = true ∨ strLe b a = true :=
  lexLe_total a.toList b.toList

theorem strLe_antisymm {a b : String} (h1 : strLe a b = true) (h2 : strLe b a = true) :
    a = b :=
  String.toList_inj.mp (lexLe_antisymm a.toList b.toList h1 h2)

theorem strLe_trans {a b c : String} (h1 : strLe a b = true) (h2 : strLe b c = true) :
    strLe a c = true :=
  lexLe_trans a.toList b.toList c.toList h1 h2

instance : IsTotal String sLe := ⟨strLe_total⟩

instance : IsTrans String sLe := ⟨fun _ _ _ => strLe_trans⟩

instance : IsAntisymm String sLe := ⟨fun _ _ => strLe_antisymm⟩

instance : IsTotal Entry entryLe := ⟨fun a b => strLe_total a.name b.name⟩

instance : IsTrans Entry entryLe := ⟨fun _ _ _ => strLe_trans⟩

instance : IsTotal YFile yfileLe := ⟨fun a b => strLe_total a.name b.name⟩

instance : IsTrans YFile yfileLe := ⟨fun _ _ _ => strLe_trans⟩

/-! ### The date regex: leftmost-match characterization -/

theorem searchDate_none_iff : ∀ l : List Char,
    searchDate l = none ↔ ∀ k, dateShape (l.drop k) = none := by
  intro l
  induction l with
  | nil =>
    simp [searchDate, dateShape]
  | cons c rest ih =>
    cases h : dateShape (c :: rest) with
    | some m =>
      simp only [searchDate, h]
      constructor
      · intro hc
        exact absurd hc (by simp)
      · intro hall
        have := hall 0
        simp [h] at this
    | none =>
      simp only [searchDate, h]
      rw [ih]
      constructor
      · intro hall k
        cases k with
        | zero => simpa using h
        | succ k => simpa using hall k
      · intro hall k
        simpa using hall (k + 1)

theorem searchDate_some_iff : ∀ l m : List Char,
    searchDate l = some m ↔
      ∃ k, dateShape (l.drop k) = some m ∧ ∀ j < k, dateShape (l.drop j) = none := by
  intro l m
  induction l with
  | nil =>
    simp [searchDate, dateShape]
  | cons c rest ih =>
    cases h : dateShape (c :: rest) with
    | some m0 =>
      simp only [searchDate, h]
      constructor
      · intro hc
        refine ⟨0, ?_, ?_⟩
        · simpa [h] using congrArg some (Option.some.inj hc)
        · intro j hj
          omega
      · rintro ⟨k, hk, hmin⟩
        cases k with
        | zero =>
          simp only [List.drop_zero] at hk
          rw [h] at hk
          exact hk.symm ▸ rfl
        | succ k =>
          have := hmin 0 (by omega)
          simp [h] at this
    | none =>
      simp only [searchDate, h]
      rw [ih]
      constructor
      · rintro ⟨k, hk, hmin⟩
        refine ⟨k + 1, by simpa using hk, ?_⟩
        intro j hj
        cases j with
        | zero => simpa using h
        | succ j => simpa using hmin j (by omega)
      · rintro ⟨k, hk, hmin⟩
        cases k with
        | zero =>
          simp only [List.drop_zero] at hk
          rw [h] at hk
          cases hk
        | succ k =>
          refine ⟨k, by simpa using hk, ?_⟩
          intro j hj
          simpa using hmin (j + 1) (by omega)

theorem searchDate_of_head {l m : List Char} (h : dateShape l = some m) :
    searchDate l = some m := by
  cases l with
  | nil => simp [dateShape] at h
  | cons c rest => simp [searchDate, h]

/-! ### Digits and strftime output -/

theorem digitChar_toNat (n : Nat) : (digitChar n).toNat = 48 + n % 10 := by
  have h : n % 10 < 10 := Nat.mod_lt _ (by omega)
  unfold digitChar
  set k := n % 10 with hk
  interval_cases k <;> decide

theorem digitChar_isDigit (n : Nat) : (digitChar n).isDigit = true := by
  have h : n % 10 < 10 := Nat.mod_lt _ (by omega)
  unfold digitChar
  set k := n % 10 with hk
  interval_cases k <;> decide

theorem digitChar_ne_dot (n : Nat) : digitChar n ≠ '.' := by
  intro h
  have h2 := congrArg Char.toNat h
  rw [digitChar_toNat] at h2
  have h3 : ('.').toNat = 46 := by decide
  omega

theorem dot_ne_digitChar (n : Nat) : ('.' = digitChar n) ↔ False := by
  simp [eq_comm, digitChar_ne_dot n]

theorem daysInMonth_le (y m : Nat) : daysInMonth y m ≤ 31 := by
  unfold daysInMonth
  split_ifs <;> omega

theorem toNatDigits_pad4 {n : Nat} (h : n ≤ 9999) : toNatDigits (pad4 n) = n := by
  simp [toNatDigits, pad4, digitChar_toNat]
  omega

theorem toNatDigits_pad2 {n : Nat} (h : n ≤ 99) : toNatDigits (pad2 n) = n := by
  simp [toNatDigits, pad2, digitChar_toNat]
  omega

theorem fmtDate_toList (dt : Date) :
    (fmtDate dt).toList = pad4 dt.y ++ '-' :: pad2 dt.m ++ '-' :: pad2 dt.d := rfl

theorem fmtDate_data (dt : Date) :
    (fmtDate dt).data = pad4 dt.y ++ '-' :: pad2 dt.m ++ '-' :: pad2 dt.d := rfl

theorem fmtDate_no_dot (dt : Date) : '.' ∉ (fmtDate dt).toList := by
  show '.' ∉ (pad4 dt.y ++ '-' :: pad2 dt.m ++ '-' :: pad2 dt.d)
  simp [pad4, pad2, dot_ne_digitChar]

theorem dateShape_fmt (dt : Date) (rest : List Char) :
    dateShape (pad4 dt.y ++ '-' :: pad2 dt.m ++ '-' :: (pad2 dt.d ++ rest))
      = some ((fmtDate dt).toList) := by
  simp [pad4, pad2, dateShape, digitChar_isDigit, fmtDate_toList, fmtDate]

theorem search_fmtDate_append (dt : Date) (s : String) :
    date_pattern_search (fmtDate dt ++ s) = some (fmtDate dt) := by
  unfold date_pattern_search
  have hl : (fmtDate dt ++ s).toList
      = pad4 dt.y ++ '-' :: pad2 dt.m ++ '-' :: (pad2 dt.d ++ s.toList) := by
    show (fmtDate dt).data ++ s.data = _
    rw [fmtDate_data]
    simp [String.toList]
  rw [hl, searchDate_of_head (dateShape_fmt dt s.toList)]
  simp [String.mk, fmtDate_toList]

theorem isValidDateToken_fmt {dt : Date} (h : ValidDate dt) :
    isValidDateToken (fmtDate dt) = true := by
  obtain ⟨h1, h2, h3, h4, h5, h6⟩ := h
  have hd31 : dt.d ≤ 31 := le_trans h6 (daysInMonth_le dt.y dt.m)
  unfold isValidDateToken
  rw [fmtDate_toList]
  simp only [pad4, pad2]
  simp [digitChar_isDigit]
  rw [show [digitChar (dt.y / 1000), digitChar (dt.y / 100), digitChar (dt.y / 10), digitChar dt.y]
      = pad4 dt.y from rfl]
  rw [show [digitChar (dt.m / 10), digitChar dt.m] = pad2 dt.m from rfl]
  rw [show [digitChar (dt.d / 10), digitChar dt.d] = pad2 dt.d from rfl]
  rw [toNatDigits_pad4 (by omega), toNatDigits_pad2 (by omega), toNatDigits_pad2 (by omega)]
  exact ⟨h1, h2, h3, h4, h5, h6⟩

theorem splitLastDot_none : ∀ l : List Char, '.' ∉ l → splitLastDot l = none := by
  intro l
  induction l with
  | nil => intro _; rfl
  | cons c rest ih =>
    intro h
    have hc : c ≠ '.' := fun hc => h (by simp [hc])
    have hr : '.' ∉ rest := fun hr => h (by simp [hr])
    simp [splitLastDot, ih hr, hc]

theorem splitLastDot_append : ∀ l m : List Char, '.' ∉ l → '.' ∉ m →
    splitLastDot (l ++ '.' :: m) = some (l, m) := by
  intro l m hl hm
  induction l with
  | nil =>
    simp [splitLastDot, splitLastDot_none m hm]
  | cons c rest ih =>
    have hc : c ≠ '.' := fun hc => hl (by simp [hc])
    have hr : '.' ∉ rest := fun hr => hl (by simp [hr])
    simp only [List.cons_append, splitLastDot]
    rw [show List.append rest ('.' :: m) = rest ++ '.' :: m from rfl, ih hr]

theorem pySuffix_fmt_mp4 (dt : Date) : pySuffix (fmtDate dt ++ ".mp4") = ".mp4" := by
  have hl : (fmtDate dt ++ ".mp4").toList = (fmtDate dt).toList ++ '.' :: ['m', 'p', '4'] := by
    show (fmtDate dt).data ++ (".mp4").data = (fmtDate dt).data ++ '.' :: ['m', 'p', '4']
    rfl
  have hne : (fmtDate dt).data ≠ [] := by
    rw [fmtDate_data]
    simp [pad4]
  unfold pySuffix
  rw [hl, splitLastDot_append _ _ (fmtDate_no_dot dt) (by decide)]
  simp [hne]

theorem isVideoFile_output (dt : Date) (e : Entry) (hname : e.name = fmtDate dt ++ ".mp4") :
    isVideoFile (fmtDate dt) e = true := by
  unfold isVideoFile
  rw [hname, pySuffix_fmt_mp4, search_fmtDate_append]
  simp
  decide

/-! ### Discovery ordering lemmas -/

theorem discover_sorted (fs : List Entry) (t : String) :
    (discoverCandidates fs t).Sorted entryLe :=
  List.sorted_insertionSort entryLe _

theorem discover_perm_filter (fs : List Entry) (t : String) :
    (discoverCandidates fs t).Perm (fs.filter (isVideoFile t)) :=
  List.perm_insertionSort entryLe _

theorem discover_names_sorted (fs : List Entry) (t : String) :
    ((discoverCandidates fs t).map Entry.name).Sorted sLe :=
  List.Pairwise.map Entry.name (fun _ _ h => h) (discover_sorted fs t)

theorem discover_names_perm_indep {fs fs2 : List Entry} (t : String) (hp : fs.Perm fs2) :
    (discoverCandidates fs t).map Entry.name = (discoverCandidates fs2 t).map Entry.name := by
  apply List.eq_of_perm_of_sorted (r := sLe)
  · exact ((discover_perm_filter fs t).map Entry.name).trans
      (((hp.filter _).map Entry.name).trans ((discover_perm_filter fs2 t).map Entry.name).symm)
  · exact discover_names_sorted fs t
  · exact discover_names_sorted fs2 t

theorem perm_map_eq_nodup {α β : Type} (f : α → β) :
    ∀ l1 l2 : List α, l1.Perm l2 → l1.map f = l2.map f → (l1.map f).Nodup → l1 = l2
  | [], [], _, _, _ => rfl
  | [], _ :: _, hp, _, _ => absurd hp (by simp [List.Perm.nil_eq])
  | _ :: _, [], hp, _, _ => by
    have := hp.length_eq
    simp at this
  | a :: as, b :: bs, hp, hm, hn => by
    simp only [List.map_cons, List.cons.injEq] at hm
    obtain ⟨hab, hmt⟩ := hm
    simp only [List.map_cons, List.nodup_cons] at hn
    have ha : a = b := by
      have hmem : a ∈ b :: bs := hp.mem_iff.mp (by simp)
      rcases List.mem_cons.mp hmem with h | h
      · exact h
      · exfalso
        have h2 : f a ∈ bs.map f := List.mem_map_of_mem f h
        rw [← hmt] at h2
        exact hn.1 (hab ▸ h2)
    subst ha
    have hp2 := hp.cons_inv
    rw [perm_map_eq_nodup f as bs hp2 hmt hn.2]

/-! ### Strategy result characterizations -/

theorem merge_videos_fast_isError (env : StratEnv) (files : List Entry) (op : String)
    (scr : Scratch) (out : Option OutFile) :
    (merge_videos_fast env files op scr out).1.isError = !stratSucceeds env := by
  rcases env with ⟨cr, wr, tr⟩
  cases cr <;> cases wr <;> cases tr <;>
    simp [merge_videos_fast, stratSucceeds, StratResult.isError]

theorem merge_videos_sync_isError (env : StratEnv) (files : List Entry) (op : String)
    (scr : Scratch) (out : Option OutFile) :
    (merge_videos_sync env files op scr out).1.isError = !stratSucceeds env := by
  rcases env with ⟨cr, wr, tr⟩
  cases cr <;> cases wr <;> cases tr <;>
    simp [merge_videos_sync, stratSucceeds, StratResult.isError]

theorem merge_videos_fast_clean (env : StratEnv) (files : List Entry) (op : String)
    (scr : Scratch) (out : Option OutFile) (h : env.writeRaises = none) :
    ((merge_videos_fast env files op scr out).2.1).onDisk = scr.onDisk := by
  rcases env with ⟨cr, wr, tr⟩
  subst h
  cases cr <;> cases tr <;> simp [merge_videos_fast, List.erase_cons_head]

theorem merge_videos_sync_clean (env : StratEnv) (files : List Entry) (op : String)
    (scr : Scratch) (out : Option OutFile) (h : env.writeRaises = none) :
    ((merge_videos_sync env files op scr out).2.1).onDisk = scr.onDisk := by
  rcases env with ⟨cr, wr, tr⟩
  subst h
  cases cr <;> cases tr <;> simp [merge_videos_sync, List.erase_cons_head]

theorem merge_videos_fast_nextId (env : StratEnv) (files : List Entry) (op : String)
    (scr : Scratch) (out : Option OutFile) (h : env.createRaises = none) :
    ((merge_videos_fast env files op scr out).2.1).nextId = scr.nextId + 1 := by
  rcases env with ⟨cr, wr, tr⟩
  subst h
  cases wr <;> cases tr <;> simp [merge_videos_fast]

theorem merge_videos_fast_ok (env : StratEnv) (files : List Entry) (op : String)
    (scr : Scratch) (out : Option OutFile) (n : Nat) (h1 : env.createRaises = none)
    (h2 : env.writeRaises = none) (h3 : env.transcode = .ok n) :
    merge_videos_fast env files op scr out
      = (.ok ("Successfully merged " ++ toString files.length
            ++ " videos (FAST mode - no re-encoding)") (basename op) n
            (round2q ((n : ℚ) / 1024 / 1024)),
          ⟨scr.nextId + 1, scr.onDisk⟩, some ⟨.fast, true, n⟩) := by
  rcases env with ⟨cr, wr, tr⟩
  subst h1
  subst h2
  subst h3
  simp [merge_videos_fast, List.erase_cons_head]

theorem merge_videos_sync_ok (env : StratEnv) (files : List Entry) (op : String)
    (scr : Scratch) (out : Option OutFile) (n : Nat) (h1 : env.createRaises = none)
    (h2 : env.writeRaises = none) (h3 : env.transcode = .ok n) :
    merge_videos_sync env files op scr out
      = (.ok ("Successfully merged " ++ toString files.length ++ " videos")
            (basename op) n (round2q ((n : ℚ) / 1024 / 1024)),
          ⟨scr.nextId + 1, scr.onDisk⟩, some ⟨.sync, true, n⟩) := by
  rcases env with ⟨cr, wr, tr⟩
  subst h1
  subst h2
  subst h3
  simp [merge_videos_sync, List.erase_cons_head]

/-! ### Pipeline branch characterizations -/

theorem run_badDate (dn : Option String) (s : String) (fs : List Entry) (env : PipelineEnv)
    (st : RunState) (h1 : dn = some s) (h2 : strptimeYmd s = none) :
    merge_today_videos dn fs env st
      = ⟨errResponse 400 "Invalid date format. Use YYYY-MM-DD", st, []⟩ := by
  unfold merge_today_videos parseDateArg
  subst h1
  simp [h2]

theorem run_noDir {dn : Option String} {d : Date} (fs : List Entry) (env : PipelineEnv)
    (st : RunState) (hd : parseDateArg dn env.nowDate = some d)
    (hdir : env.dirExists = false) :
    merge_today_videos dn fs env st
      = ⟨errResponse 404 "n8n_ffmpeg folder not found", st, []⟩ := by
  unfold merge_today_videos
  rw [hd]
  simp [hdir]

theorem run_discRaise {dn : Option String} {d : Date} {m : String} (fs : List Entry)
    (env : PipelineEnv) (st : RunState) (hd : parseDateArg dn env.nowDate = some d)
    (hdir : env.dirExists = true) (hexc : env.discoveryRaises = some m) :
    merge_today_videos dn fs env st = ⟨errResponse 500 m, st, []⟩ := by
  unfold merge_today_videos
  rw [hd]
  simp [hdir, hexc]

theorem run_noCands {dn : Option String} {d : Date} (fs : List Entry) (env : PipelineEnv)
    (st : RunState) (hd : parseDateArg dn env.nowDate = some d)
    (hdir : env.dirExists = true) (hexc : env.discoveryRaises = none)
    (hempty : discoverCandidates fs (fmtDate d) = []) :
    merge_today_videos dn fs env st
      = ⟨errResponse 404 ("No video files found for " ++ fmtDate d), st, []⟩ := by
  unfold merge_today_videos
  rw [hd]
  simp [hdir, hexc, hempty]

theorem run_main {dn : Option String} {d : Date} (fs : List Entry) (env : PipelineEnv)
    (st : RunState) (hd : parseDateArg dn env.nowDate = some d)
    (hdir : env.dirExists = true) (hexc : env.discoveryRaises = none)
    (hne : discoverCandidates fs (fmtDate d) ≠ []) :
    merge_today_videos dn fs env st
      = (let video_files := discoverCandidates fs (fmtDate d)
         let output_path := STATICFILES_DIR ++ "/" ++ (fmtDate d ++ ".mp4")
         let fastRun := merge_videos_fast env.fastEnv video_files output_path st.scr st.out
         let inv1 : Invocation := ⟨.fast, video_files.map Entry.path, output_path⟩
         if fastRun.1.isError then
           let syncRun :=
             merge_videos_sync env.syncEnv video_files output_path fastRun.2.1 fastRun.2.2
           finishResponse (fmtDate d) video_files syncRun.1 ⟨syncRun.2.1, syncRun.2.2⟩
             [inv1, ⟨.sync, video_files.map Entry.path, output_path⟩]
         else
           finishResponse (fmtDate d) video_files fastRun.1 ⟨fastRun.2.1, fastRun.2.2⟩ [inv1]) := by
  unfold merge_today_videos
  rw [hd]
  simp [hdir, hexc, hne]

theorem finishResponse_message (t : String) (files : List Entry) (r : StratResult)
    (st : RunState) (tr : List Invocation) :
    (finishResponse t files r st tr).response.message = r.message := by
  cases r <;> rfl

theorem finishResponse_trace (t : String) (files : List Entry) (r : StratResult)
    (st : RunState) (tr : List Invocation) :
    (finishResponse t files r st tr).trace = tr := by
  cases r <;> rfl

theorem finishResponse_state (t : String) (files : List Entry) (r : StratResult)
    (st : RunState) (tr : List Invocation) :
    (finishResponse t files r st tr).state = st := by
  cases r <;> rfl

theorem finishResponse_status (t : String) (files : List Entry) (r : StratResult)
    (st : RunState) (tr : List Invocation) :
    (finishResponse t files r st tr).response.statusCode
      = if r.isError then 500 else 200 := by
  cases r <;> rfl

/-- C1: for every non-empty ordered candidate list, the orchestration
first runs the FastCopy strategy; if and only if FastCopy returns a
failure result, the ReencodeFallback strategy is then run on the same
ordered list and the same output path, and the final result is
ReencodeFallback's result (message, and success/failure status); if
FastCopy succeeds, ReencodeFallback is never invoked. -/
theorem C1_fast_then_fallback (dn : Option String) (d : Date) (fs : List Entry)
    (env : PipelineEnv) (st : RunState) (hd : parseDateArg dn env.nowDate = some d)
    (hdir : env.dirExists = true) (hexc : env.discoveryRaises = none)
    (hne : discoverCandidates fs (fmtDate d) ≠ []) :
    (merge_today_videos dn fs env st).trace.head?
        = some ⟨.fast, (discoverCandidates fs (fmtDate d)).map Entry.path,
            STATICFILES_DIR ++ "/" ++ (fmtDate d ++ ".mp4")⟩
    ∧ ((merge_videos_fast env.fastEnv (discoverCandidates fs (fmtDate d))
          (STATICFILES_DIR ++ "/" ++ (fmtDate d ++ ".mp4")) st.scr st.out).1.isError = true →
        (merge_today_videos dn fs env st).trace
            = [⟨.fast, (discoverCandidates fs (fmtDate d)).map Entry.path,
                  STATICFILES_DIR ++ "/" ++ (fmtDate d ++ ".mp4")⟩,
               ⟨.sync, (discoverCandidates fs (fmtDate d)).map Entry.path,
                  STATICFILES_DIR ++ "/" ++ (fmtDate d ++ ".mp4")⟩]
        ∧ (merge_today_videos dn fs env st).response.message
            = (merge_videos_sync env.syncEnv (discoverCandidates fs (fmtDate d))
                (STATICFILES_DIR ++ "/" ++ (fmtDate d ++ ".mp4"))
                (merge_videos_fast env.fastEnv (discoverCandidates fs (fmtDate d))
                  (STATICFILES_DIR ++ "/" ++ (fmtDate d ++ ".mp4")) st.scr st.out).2.1
                (merge_videos_fast env.fastEnv (discoverCandidates fs (fmtDate d))
                  (STATICFILES_DIR ++ "/" ++ (fmtDate d ++ ".mp4")) st.scr st.out).2.2).1.message
        ∧ ((merge_today_videos dn fs env st).response.statusCode = 200
            ↔ (merge_videos_sync env.syncEnv (discoverCandidates fs (fmtDate d))
                (STATICFILES_DIR ++ "/" ++ (fmtDate d ++ ".mp4"))
                (merge_videos_fast env.fastEnv (discoverCandidates fs (fmtDate d))
                  (STATICFILES_DIR ++ "/" ++ (fmtDate d ++ ".mp4")) st.scr st.out).2.1
                (merge_videos_fast env.fastEnv (discoverCandidates fs (fmtDate d))
                  (STATICFILES_DIR ++ "/" ++ (fmtDate d ++ ".mp4")) st.scr st.out).2.2).1.isError
              = false))
    ∧ ((merge_videos_fast env.fastEnv (discoverCandidates fs (fmtDate d))
          (STATICFILES_DIR ++ "/" ++ (fmtDate d ++ ".mp4")) st.scr st.out).1.isError = false →
        (merge_today_videos dn fs env st).trace
            = [⟨.fast, (discoverCandidates fs (fmtDate d)).map Entry.path,
                  STATICFILES_DIR ++ "/" ++ (fmtDate d ++ ".mp4")⟩]
        ∧ (merge_today_videos dn fs env st).response.message
            = (merge_videos_fast env.fastEnv (discoverCandidates fs (fmtDate d))
                (STATICFILES_DIR ++ "/" ++ (fmtDate d ++ ".mp4")) st.scr st.out).1.message
        ∧ (merge_today_videos dn fs env st).response.statusCode = 200)
    ∧ ((∃ inv ∈ (merge_today_videos dn fs env st).trace, inv.method = .sync)
        ↔ (merge_videos_fast env.fastEnv (discoverCandidates fs (fmtDate d))
            (STATICFILES_DIR ++ "/" ++ (fmtDate d ++ ".mp4")) st.scr st.out).1.isError = true) := by
  rw [run_main fs env st hd hdir hexc hne]
  have ite200 : ∀ b : Bool, ((if b = true then (500 : Nat) else 200) = 200 ↔ b = false) := by
    intro b
    cases b <;> simp
  cases hE : (merge_videos_fast env.fastEnv (discoverCandidates fs (fmtDate d))
      (STATICFILES_DIR ++ "/" ++ (fmtDate d ++ ".mp4")) st.scr st.out).1.isError <;>
    simp [hE, finishResponse_trace, finishResponse_message, finishResponse_status, ite200]

/-- C1 witness: a concrete run where FastCopy fails and ReencodeFallback
runs on the same ordered list and output path. -/
theorem C1_fast_then_fallback_witness :
    (merge_today_videos (some "2024-05-01")
        [⟨"a_2024-05-01.mp4", "a_2024-05-01.mp4", 1, 0⟩]
        ⟨⟨2024, 5, 1⟩, true, none, ⟨none, none, .ffmpegErr "boom" none⟩,
          ⟨none, none, .ok 9⟩⟩
        ⟨⟨0, []⟩, none⟩).trace
      = [⟨.fast, ["a_2024-05-01.mp4"], "n8n_ffmpeg/2024-05-01.mp4"⟩,
         ⟨.sync, ["a_2024-05-01.mp4"], "n8n_ffmpeg/2024-05-01.mp4"⟩] := by
  have h := (C1_fast_then_fallback (some "2024-05-01") ⟨2024, 5, 1⟩
      [⟨"a_2024-05-01.mp4", "a_2024-05-01.mp4", 1, 0⟩]
      ⟨⟨2024, 5, 1⟩, true, none, ⟨none, none, .ffmpegErr "boom" none⟩, ⟨none, none, .ok 9⟩⟩
      ⟨⟨0, []⟩, none⟩ (by decide) rfl rfl (by decide)).2.1 (by decide)
  rw [h.1]
  decide

/-- C2 (amended): the list handed to the strategies is the discovered
candidates stably sorted ascending by filename (codepoint-lexicographic);
the filename sequence is independent of the discovery enumeration order;
and the full list is enumeration-order-independent whenever no two
candidates share a filename. -/
theorem C2_ordering (fs fs2 : List Entry) (today : String) (hp : fs.Perm fs2) :
    (discoverCandidates fs today).Perm (fs.filter (isVideoFile today))
    ∧ (discoverCandidates fs today).Sorted entryLe
    ∧ (discoverCandidates fs today).map Entry.name
        = (discoverCandidates fs2 today).map Entry.name
    ∧ (((discoverCandidates fs today).map Entry.name).Nodup →
        discoverCandidates fs today = discoverCandidates fs2 today) :=
  ⟨discover_perm_filter fs today, discover_sorted fs today,
    discover_names_perm_indep today hp,
    fun hnd => perm_map_eq_nodup Entry.name _ _
      ((discover_perm_filter fs today).trans
        ((hp.filter _).trans (discover_perm_filter fs2 today).symm))
      (discover_names_perm_indep today hp) hnd⟩

/-- C2 counterexample: two candidate files with the same name in
different subdirectories.  The sorted candidate list (a list of paths)
depends on the enumeration order, refuting "this order is the same for
every permutation of the discovery (enumeration) order." -/
theorem C2_counterexample :
    ([⟨"d1/x_2024-05-01.mp4", "x_2024-05-01.mp4", 1, 1⟩,
      ⟨"d2/x_2024-05-01.mp4", "x_2024-05-01.mp4", 2, 2⟩] : List Entry).Perm
      [⟨"d2/x_2024-05-01.mp4", "x_2024-05-01.mp4", 2, 2⟩,
       ⟨"d1/x_2024-05-01.mp4", "x_2024-05-01.mp4", 1, 1⟩]
    ∧ discoverCandidates
        [⟨"d1/x_2024-05-01.mp4", "x_2024-05-01.mp4", 1, 1⟩,
         ⟨"d2/x_2024-05-01.mp4", "x_2024-05-01.mp4", 2, 2⟩] "2024-05-01"
      ≠ discoverCandidates
        [⟨"d2/x_2024-05-01.mp4", "x_2024-05-01.mp4", 2, 2⟩,
         ⟨"d1/x_2024-05-01.mp4", "x_2024-05-01.mp4", 1, 1⟩] "2024-05-01" := by
  constructor
  · decide
  · decide

/-- C2 witness: with distinct filenames the discovered list is
independent of the enumeration order. -/
theorem C2_ordering_witness :
    discoverCandidates
        [⟨"a_2024-05-01.mp4", "a_2024-05-01.mp4", 1, 0⟩,
         ⟨"b_2024-05-01.mp4", "b_2024-05-01.mp4", 2, 0⟩] "2024-05-01"
      = discoverCandidates
        [⟨"b_2024-05-01.mp4", "b_2024-05-01.mp4", 2, 0⟩,
         ⟨"a_2024-05-01.mp4", "a_2024-05-01.mp4", 1, 0⟩] "2024-05-01" :=
  (C2_ordering
      [⟨"a_2024-05-01.mp4", "a_2024-05-01.mp4", 1, 0⟩,
       ⟨"b_2024-05-01.mp4", "b_2024-05-01.mp4", 2, 0⟩]
      [⟨"b_2024-05-01.mp4", "b_2024-05-01.mp4", 2, 0⟩,
       ⟨"a_2024-05-01.mp4", "a_2024-05-01.mp4", 1, 0⟩]
      "2024-05-01" (by decide)).2.2.2 (by decide)

/-- C5: when the source root exists but no file passes the extension and
date filter, the run answers 404 with the `NoCandidates` message and no
strategy (hence no transcoder) is ever invoked. -/
theorem C5_no_candidates (dn : Option String) (d : Date) (fs : List Entry)
    (env : PipelineEnv) (st : RunState) (hd : parseDateArg dn env.nowDate = some d)
    (hdir : env.dirExists = true) (hexc : env.discoveryRaises = none)
    (hempty : fs.filter (isVideoFile (fmtDate d)) = []) :
    (merge_today_videos dn fs env st).response.statusCode = 404
    ∧ (merge_today_videos dn fs env st).response.message
        = "No video files found for " ++ fmtDate d
    ∧ (merge_today_videos dn fs env st).trace = []
    ∧ (merge_today_videos dn fs env st).state = st := by
  have hcands : discoverCandidates fs (fmtDate d) = [] := by
    have := discover_perm_filter fs (fmtDate d)
    rw [hempty] at this
    exact this.eq_nil
  rw [run_noCands fs env st hd hdir hexc hcands]
  exact ⟨rfl, rfl, rfl, rfl⟩

/-- C5 witness: a run over a root containing only a non-matching file. -/
theorem C5_no_candidates_witness :
    (merge_today_videos (some "2024-05-01") [⟨"notes.txt", "notes.txt", 3, 0⟩]
        ⟨⟨2024, 5, 1⟩, true, none, ⟨none, none, .ok 1⟩, ⟨none, none, .ok 1⟩⟩
        ⟨⟨0, []⟩, none⟩).response.statusCode = 404
    ∧ (merge_today_videos (some "2024-05-01") [⟨"notes.txt", "notes.txt", 3, 0⟩]
        ⟨⟨2024, 5, 1⟩, true, none, ⟨none, none, .ok 1⟩, ⟨none, none, .ok 1⟩⟩
        ⟨⟨0, []⟩, none⟩).trace = [] := by
  have h := C5_no_candidates (some "2024-05-01") ⟨2024, 5, 1⟩
      [⟨"notes.txt", "notes.txt", 3, 0⟩]
      ⟨⟨2024, 5, 1⟩, true, none, ⟨none, none, .ok 1⟩, ⟨none, none, .ok 1⟩⟩
      ⟨⟨0, []⟩, none⟩ (by decide) rfl rfl (by decide)
  exact ⟨h.1, h.2.2.1⟩

/-- C3 counterexample: the code performs no calendar validation and
takes the first pattern match.  The filename contains the valid date
substring `2024-05-01`, yet extraction returns the calendar-invalid
first pattern match `2024-13-40` (neither `none` nor the valid date),
and the filename does not match the target date 2024-05-01. -/
theorem C3_counterexample :
    "2024-13-40_2024-05-01.mp4" = "2024-13-40_" ++ "2024-05-01" ++ ".mp4"
    ∧ isValidDateToken "2024-05-01" = true
    ∧ isValidDateToken "2024-13-40" = false
    ∧ date_pattern_search "2024-13-40_2024-05-01.mp4" = some "2024-13-40"
    ∧ dateMatches "2024-13-40_2024-05-01.mp4" ⟨2024, 5, 1⟩ = false
    ∧ fmtDate ⟨2024, 5, 1⟩ = "2024-05-01" := by
  refine ⟨rfl, by decide, by decide, by decide, by decide, by decide⟩

/-- C3 (amended): extraction returns the leftmost substring matching the
pattern four digits, dash, two digits, dash, two digits, with no
calendar validation; it returns `none` exactly when no position matches
the pattern.  `matches` holds iff the extracted string equals the
formatted target date; filenames without a pattern match never match,
and a filename whose first pattern match is not a calendar-valid token
matches no valid target date. -/
theorem C3_matcher (f : String) :
    (date_pattern_search f = none ↔ ∀ k, dateShape (f.toList.drop k) = none)
    ∧ (date_pattern_search f = none → ∀ dt : Date, dateMatches f dt = false)
    ∧ (∀ s, date_pattern_search f = some s →
        (∃ k, dateShape (f.toList.drop k) = some s.toList
            ∧ ∀ j < k, dateShape (f.toList.drop j) = none)
        ∧ (∀ dt : Date, dateMatches f dt = true ↔ s = fmtDate dt)
        ∧ (isValidDateToken s = false →
            ∀ dt : Date, ValidDate dt → dateMatches f dt = false)) := by
  refine ⟨?_, ?_, ?_⟩
  · rw [show (date_pattern_search f = none ↔ searchDate f.toList = none) from by
      simp [date_pattern_search]]
    exact searchDate_none_iff f.toList
  · intro h dt
    have hs : searchDate f.toList = none := by
      simpa [date_pattern_search] using h
    unfold dateMatches date_pattern_search
    rw [hs]
    rfl
  · intro s hs
    have hsm : searchDate f.toList = some s.toList := by
      unfold date_pattern_search at hs
      cases hsd : searchDate f.toList with
      | none => rw [hsd] at hs; cases hs
      | some m =>
        rw [hsd] at hs
        simp at hs
        rw [← hs]
        rfl
    have hmatch : ∀ dt : Date, dateMatches f dt = (s == fmtDate dt) := by
      intro dt
      unfold dateMatches date_pattern_search
      rw [hsm]
      rfl
    refine ⟨(searchDate_some_iff f.toList s.toList).mp hsm, ?_, ?_⟩
    · intro dt
      rw [hmatch dt]
      exact beq_iff_eq
    · intro hbad dt hvalid
      rw [hmatch dt]
      cases hM : (s == fmtDate dt) with
      | false => rfl
      | true =>
        exfalso
        have heq : s = fmtDate dt := eq_of_beq hM
        rw [heq, isValidDateToken_fmt hvalid] at hbad
        cases hbad

/-- C3 witness: a filename embedding a valid date matches exactly that
date. -/
theorem C3_matcher_witness :
    dateMatches "a_2024-05-01.mp4" ⟨2024, 5, 1⟩ = true :=
  (((C3_matcher "a_2024-05-01.mp4").2.2 "2024-05-01" (by decide)).2.1
    ⟨2024, 5, 1⟩).mpr (by decide)

/-! ### Path component lemmas -/

theorem splitOnChar_no_sep (sep : Char) : ∀ l : List Char, sep ∉ l →
    splitOnChar sep l = [l] := by
  intro l
  induction l with
  | nil => intro _; rfl
  | cons c rest ih =>
    intro h
    have hc : c ≠ sep := fun hc => h (by simp [hc])
    have hr : sep ∉ rest := fun hr => h (by simp [hr])
    simp [splitOnChar, ih hr, hc]

theorem splitOnChar_append_no_sep (sep : Char) (l m : List Char) (hl : sep ∉ l) :
    splitOnChar sep (l ++ sep :: m) = l :: splitOnChar sep m := by
  induction l with
  | nil => simp [splitOnChar]
  | cons c rest ih =>
    have hc : c ≠ sep := fun hc => hl (by simp [hc])
    have hr : sep ∉ rest := fun hr => hl (by simp [hr])
    have ihr := ih hr
    simp only [List.cons_append, splitOnChar]
    rw [show List.append rest (sep :: m) = rest ++ sep :: m from rfl, ihr]
    simp [hc]

theorem digitChar_ne_slash (n : Nat) : digitChar n ≠ '/' := by
  intro h
  have h2 := congrArg Char.toNat h
  rw [digitChar_toNat] at h2
  have h3 : ('/').toNat = 47 := by decide
  omega

theorem slash_ne_digitChar (n : Nat) : ('/' = digitChar n) ↔ False := by
  simp [eq_comm, digitChar_ne_slash n]

theorem fmtDate_no_slash (dt : Date) : '/' ∉ (fmtDate dt).toList := by
  show '/' ∉ (pad4 dt.y ++ '-' :: pad2 dt.m ++ '-' :: pad2 dt.d)
  simp [pad4, pad2, slash_ne_digitChar]

theorem basename_static (f : String) (hf : '/' ∉ f.toList) :
    basename (STATICFILES_DIR ++ "/" ++ f) = f := by
  unfold basename
  have hl : (STATICFILES_DIR ++ "/" ++ f).toList
      = ("n8n_ffmpeg").toList ++ '/' :: f.toList := by
    show (STATICFILES_DIR ++ "/").data ++ f.data = ("n8n_ffmpeg").data ++ '/' :: f.data
    rfl
  rw [hl, splitOnChar_append_no_sep '/' _ _ (by decide),
    splitOnChar_no_sep '/' f.toList hf]
  rfl

theorem basename_output (dt : Date) :
    basename (STATICFILES_DIR ++ "/" ++ (fmtDate dt ++ ".mp4")) = fmtDate dt ++ ".mp4" := by
  apply basename_static
  show '/' ∉ (fmtDate dt).data ++ (".mp4").data
  intro h
  rcases List.mem_append.mp h with h | h
  · exact fmtDate_no_slash dt h
  · simp at h

/-- The outcomes under which a strategy invocation succeeds. -/
theorem stratSucceeds_iff (env : StratEnv) :
    stratSucceeds env = true
      ↔ env.createRaises = none ∧ env.writeRaises = none
          ∧ ∃ n, env.transcode = .ok n := by
  rcases env with ⟨cr, wr, tr⟩
  cases cr <;> cases wr <;> cases tr <;> simp [stratSucceeds]

/-- C10: the merge output file `{D}.mp4` itself passes the candidate
filter for date `D` (allowed extension, first date-pattern match equals
`D`), so on a re-run for `D` a file with that name under the source root
is in the discovered candidate list. -/
theorem C10_output_is_candidate (dt : Date) (hvalid : ValidDate dt) (fs : List Entry)
    (e : Entry) (he : e ∈ fs) (hname : e.name = fmtDate dt ++ ".mp4") :
    isVideoFile (fmtDate dt) e = true
    ∧ e ∈ discoverCandidates fs (fmtDate dt)
    ∧ date_pattern_search e.name = some (fmtDate dt) := by
  have h1 := isVideoFile_output dt e hname
  refine ⟨h1, ?_, by rw [hname]; exact search_fmtDate_append dt ".mp4"⟩
  exact ((discover_perm_filter fs (fmtDate dt)).mem_iff).mpr
    (List.mem_filter.mpr ⟨he, h1⟩)

/-- C10 witness: a previous output `2024-05-01.mp4` is rediscovered as a
candidate of the re-run for 2024-05-01. -/
theorem C10_output_is_candidate_witness :
    (⟨"2024-05-01.mp4", "2024-05-01.mp4", 100, 0⟩ : Entry)
      ∈ discoverCandidates
          [⟨"a_2024-05-01.mp4", "a_2024-05-01.mp4", 1, 0⟩,
           ⟨"2024-05-01.mp4", "2024-05-01.mp4", 100, 0⟩]
          (fmtDate ⟨2024, 5, 1⟩) :=
  (C10_output_is_candidate ⟨2024, 5, 1⟩ (by decide)
      [⟨"a_2024-05-01.mp4", "a_2024-05-01.mp4", 1, 0⟩,
       ⟨"2024-05-01.mp4", "2024-05-01.mp4", 100, 0⟩]
      ⟨"2024-05-01.mp4", "2024-05-01.mp4", 100, 0⟩
      (by decide) (by decide)).2.1

/-- C4 counterexample: an exception raised while writing the manifest
entries — after `NamedTemporaryFile(delete=False)` created the file but
before the inner `try/finally` around the ffmpeg call is entered — is
caught by the outer `except`, and the scratch manifest file (id 0) is
still on disk when the invocation returns, refuting "the concat-manifest
scratch file does not exist on disk when the invocation returns" for
exceptions raised while writing the manifest. -/
theorem C4_counterexample :
    ((merge_videos_fast ⟨none, some "No space left on device", .ok 0⟩ []
        "n8n_ffmpeg/2024-05-01.mp4" ⟨0, []⟩ none).2.1).onDisk = [0]
    ∧ (merge_videos_fast ⟨none, some "No space left on device", .ok 0⟩ []
        "n8n_ffmpeg/2024-05-01.mp4" ⟨0, []⟩ none).1.isError = true :=
  ⟨rfl, rfl⟩

/-- C4 (amended): for both strategies, when the manifest write does not
itself raise, the invocation's scratch manifest is gone on return for
every transcoder outcome (success, `ffmpeg.Error`, any other exception)
and also when manifest creation fails before a file exists; and each
invocation uses a fresh manifest id, never one already on disk, with the
id counter advancing so a later invocation cannot reuse it. -/
theorem C4_manifest_cleanup (env : StratEnv) (files : List Entry) (op : String)
    (scr : Scratch) (out : Option OutFile) (hw : env.writeRaises = none)
    (hfresh : ∀ i ∈ scr.onDisk, i < scr.nextId) :
    ((merge_videos_fast env files op scr out).2.1).onDisk = scr.onDisk
    ∧ ((merge_videos_sync env files op scr out).2.1).onDisk = scr.onDisk
    ∧ scr.nextId ∉ scr.onDisk
    ∧ (env.createRaises = none →
        ((merge_videos_fast env files op scr out).2.1).nextId = scr.nextId + 1) := by
  refine ⟨merge_videos_fast_clean env files op scr out hw,
    merge_videos_sync_clean env files op scr out hw, ?_,
    fun hc => merge_videos_fast_nextId env files op scr out hc⟩
  intro hmem
  exact absurd (hfresh _ hmem) (by omega)

/-- C4 witness: a failing fast transcode leaves no manifest behind and
used the fresh id 7. -/
theorem C4_manifest_cleanup_witness :
    ((merge_videos_fast ⟨none, none, .ffmpegErr "boom" none⟩ [] "out" ⟨7, [3]⟩
        none).2.1).onDisk = [3]
    ∧ ((merge_videos_fast ⟨none, none, .ffmpegErr "boom" none⟩ [] "out" ⟨7, [3]⟩
        none).2.1).nextId = 8 := by
  have h := C4_manifest_cleanup ⟨none, none, .ffmpegErr "boom" none⟩ [] "out" ⟨7, [3]⟩
    none rfl (by decide)
  exact ⟨h.1, h.2.2.2 rfl⟩

theorem StratResult.err_of_isError {r : StratResult} (h : r.isError = true) :
    r = .err r.message := by
  cases r with
  | ok m f n q => cases h
  | err m => rfl

theorem finishResponse_err (t : String) (files : List Entry) (m : String)
    (st : RunState) (tr : List Invocation) :
    finishResponse t files (.err m) st tr = ⟨errResponse 500 m, st, tr⟩ := rfl

/-- The full outcome of a run in which FastCopy succeeds. -/
theorem run_fast_ok {dn : Option String} {d : Date} (fs : List Entry) (env : PipelineEnv)
    (st : RunState) (hd : parseDateArg dn env.nowDate = some d)
    (hdir : env.dirExists = true) (hexc : env.discoveryRaises = none)
    (hne : discoverCandidates fs (fmtDate d) ≠ []) (n : Nat)
    (hc : env.fastEnv.createRaises = none) (hw : env.fastEnv.writeRaises = none)
    (htr : env.fastEnv.transcode = .ok n) :
    merge_today_videos dn fs env st
      = ⟨⟨200, true,
            "Successfully merged " ++ toString (discoverCandidates fs (fmtDate d)).length
              ++ " videos (FAST mode - no re-encoding)",
            some (fmtDate d), some ((discoverCandidates fs (fmtDate d)).map Entry.name),
            some (discoverCandidates fs (fmtDate d)).length,
            some (fmtDate d ++ ".mp4"), some n, some (round2q ((n : ℚ) / 1024 / 1024)),
            some ("/static/" ++ (fmtDate d ++ ".mp4"))⟩,
          ⟨⟨st.scr.nextId + 1, st.scr.onDisk⟩, some ⟨.fast, true, n⟩⟩,
          [⟨.fast, (discoverCandidates fs (fmtDate d)).map Entry.path,
              STATICFILES_DIR ++ "/" ++ (fmtDate d ++ ".mp4")⟩]⟩ := by
  rw [run_main fs env st hd hdir hexc hne]
  simp only [merge_videos_fast_ok env.fastEnv _ _ _ _ n hc hw htr, StratResult.isError,
    Bool.false_eq_true, if_false, finishResponse, basename_output]

/-- The full outcome of a run in which FastCopy fails and
ReencodeFallback succeeds. -/
theorem run_fallback_ok {dn : Option String} {d : Date} (fs : List Entry) (env : PipelineEnv)
    (st : RunState) (hd : parseDateArg dn env.nowDate = some d)
    (hdir : env.dirExists = true) (hexc : env.discoveryRaises = none)
    (hne : discoverCandidates fs (fmtDate d) ≠ []) (n : Nat)
    (hfast : stratSucceeds env.fastEnv = false)
    (hc : env.syncEnv.createRaises = none) (hw : env.syncEnv.writeRaises = none)
    (htr : env.syncEnv.transcode = .ok n) :
    (merge_today_videos dn fs env st).response
      = ⟨200, true,
          "Successfully merged " ++ toString (discoverCandidates fs (fmtDate d)).length
            ++ " videos",
          some (fmtDate d), some ((discoverCandidates fs (fmtDate d)).map Entry.name),
          some (discoverCandidates fs (fmtDate d)).length,
          some (fmtDate d ++ ".mp4"), some n, some (round2q ((n : ℚ) / 1024 / 1024)),
          some ("/static/" ++ (fmtDate d ++ ".mp4"))⟩
    ∧ (merge_today_videos dn fs env st).state.out = some ⟨.sync, true, n⟩
    ∧ (merge_today_videos dn fs env st).trace
        = [⟨.fast, (discoverCandidates fs (fmtDate d)).map Entry.path,
              STATICFILES_DIR ++ "/" ++ (fmtDate d ++ ".mp4")⟩,
           ⟨.sync, (discoverCandidates fs (fmtDate d)).map Entry.path,
              STATICFILES_DIR ++ "/" ++ (fmtDate d ++ ".mp4")⟩] := by
  rw [run_main fs env st hd hdir hexc hne]
  have hE : (merge_videos_fast env.fastEnv (discoverCandidates fs (fmtDate d))
      (STATICFILES_DIR ++ "/" ++ (fmtDate d ++ ".mp4")) st.scr st.out).1.isError = true := by
    rw [merge_videos_fast_isError, hfast]
    rfl
  simp [hE, merge_videos_sync_ok env.syncEnv _ _ _ _ n hc hw htr,
    finishResponse, basename_output]

/-- The outcome of a run in which both strategies fail. -/
theorem run_both_fail {dn : Option String} {d : Date} (fs : List Entry) (env : PipelineEnv)
    (st : RunState) (hd : parseDateArg dn env.nowDate = some d)
    (hdir : env.dirExists = true) (hexc : env.discoveryRaises = none)
    (hne : discoverCandidates fs (fmtDate d) ≠ [])
    (hfast : stratSucceeds env.fastEnv = false)
    (hsync : stratSucceeds env.syncEnv = false) :
    (merge_today_videos dn fs env st).response.statusCode = 500
    ∧ (merge_today_videos dn fs env st).response.output_file = none
    ∧ (merge_today_videos dn fs env st).response.output_size = none := by
  rw [run_main fs env st hd hdir hexc hne]
  have hE : (merge_videos_fast env.fastEnv (discoverCandidates fs (fmtDate d))
      (STATICFILES_DIR ++ "/" ++ (fmtDate d ++ ".mp4")) st.scr st.out).1.isError = true := by
    rw [merge_videos_fast_isError, hfast]
    rfl
  have hS : (merge_videos_sync env.syncEnv (discoverCandidates fs (fmtDate d))
      (STATICFILES_DIR ++ "/" ++ (fmtDate d ++ ".mp4"))
      (merge_videos_fast env.fastEnv (discoverCandidates fs (fmtDate d))
        (STATICFILES_DIR ++ "/" ++ (fmtDate d ++ ".mp4")) st.scr st.out).2.1
      (merge_videos_fast env.fastEnv (discoverCandidates fs (fmtDate d))
        (STATICFILES_DIR ++ "/" ++ (fmtDate d ++ ".mp4")) st.scr st.out).2.2).1.isError
        = true := by
    rw [merge_videos_sync_isError, hsync]
    rfl
  simp only [hE, if_true]
  rw [StratResult.err_of_isError hS, finishResponse_err]
  exact ⟨rfl, rfl, rfl⟩

/-- C6 counterexample: the code never removes a partial output after a
failed strategy; with a fast transcode that fails leaving 5 bytes of
debris at the output path, an (incomplete) file exists at `output_path`
when the failed FastCopy invocation returns — before ReencodeFallback
runs — refuting "a failed FastCopy attempt leaves no partial file at
output_path before ReencodeFallback runs". -/
theorem C6_counterexample :
    (merge_videos_fast ⟨none, none, .ffmpegErr "codec mismatch" (some 5)⟩
        [] "n8n_ffmpeg/2024-05-01.mp4" ⟨0, []⟩ none).1.isError = true
    ∧ (merge_videos_fast ⟨none, none, .ffmpegErr "codec mismatch" (some 5)⟩
        [] "n8n_ffmpeg/2024-05-01.mp4" ⟨0, []⟩ none).2.2
      = some ⟨.fast, false, 5⟩ :=
  ⟨rfl, rfl⟩

/-- C6 (amended): on a successful run, exactly one strategy's invocation
produced the file at `output_path` (FastCopy when it succeeded, else
ReencodeFallback, whose overwriting transcode replaces any debris of the
failed FastCopy); on a run where both strategies fail, the response
claims no output (no `output_file`/`output_size` fields).  A failed
strategy may leave an incomplete file at `output_path`; the code does
not delete it. -/
theorem C6_output_claims (dn : Option String) (d : Date) (fs : List Entry)
    (env : PipelineEnv) (st : RunState) (hd : parseDateArg dn env.nowDate = some d)
    (hdir : env.dirExists = true) (hexc : env.discoveryRaises = none)
    (hne : discoverCandidates fs (fmtDate d) ≠ []) :
    (∀ n, env.fastEnv.createRaises = none → env.fastEnv.writeRaises = none →
        env.fastEnv.transcode = .ok n →
        (merge_today_videos dn fs env st).state.out = some ⟨.fast, true, n⟩
        ∧ (merge_today_videos dn fs env st).response.output_size = some n)
    ∧ (∀ n, stratSucceeds env.fastEnv = false → env.syncEnv.createRaises = none →
        env.syncEnv.writeRaises = none → env.syncEnv.transcode = .ok n →
        (merge_today_videos dn fs env st).state.out = some ⟨.sync, true, n⟩
        ∧ (merge_today_videos dn fs env st).response.output_size = some n)
    ∧ (stratSucceeds env.fastEnv = false → stratSucceeds env.syncEnv = false →
        (merge_today_videos dn fs env st).response.statusCode = 500
        ∧ (merge_today_videos dn fs env st).response.output_file = none
        ∧ (merge_today_videos dn fs env st).response.output_size = none) := by
  refine ⟨?_, ?_, ?_⟩
  · intro n hc hw htr
    rw [run_fast_ok fs env st hd hdir hexc hne n hc hw htr]
    exact ⟨rfl, rfl⟩
  · intro n hfast hc hw htr
    have h := run_fallback_ok fs env st hd hdir hexc hne n hfast hc hw htr
    refine ⟨h.2.1, ?_⟩
    rw [h.1]
  · intro hfast hsync
    exact run_both_fail fs env st hd hdir hexc hne hfast hsync

/-- C6 witness: FastCopy fails leaving debris, ReencodeFallback succeeds
and owns the final output file. -/
theorem C6_output_claims_witness :
    (merge_today_videos (some "2024-05-01")
        [⟨"a_2024-05-01.mp4", "a_2024-05-01.mp4", 1, 0⟩]
        ⟨⟨2024, 5, 1⟩, true, none, ⟨none, none, .ffmpegErr "codec mismatch" (some 5)⟩,
          ⟨none, none, .ok 9⟩⟩
        ⟨⟨0, []⟩, none⟩).state.out = some ⟨.sync, true, 9⟩ :=
  (((C6_output_claims (some "2024-05-01") ⟨2024, 5, 1⟩
      [⟨"a_2024-05-01.mp4", "a_2024-05-01.mp4", 1, 0⟩]
      ⟨⟨2024, 5, 1⟩, true, none, ⟨none, none, .ffmpegErr "codec mismatch" (some 5)⟩,
        ⟨none, none, .ok 9⟩⟩
      ⟨⟨0, []⟩, none⟩ (by decide) rfl rfl (by decide)).2.1)
    9 (by decide) rfl rfl rfl).1

/-- C7: a successful run writes the output as `{date}.mp4` directly
under the source root (every strategy invocation targets that path, and
the response reports that file name); the produced file and the reported
`output_size` are those of this run's successful transcode, for every
prior world state — re-running for the same date overwrites the previous
output and reports the new size. -/
theorem C7_output_overwrite (dn : Option String) (d : Date) (fs : List Entry)
    (env : PipelineEnv) (st st2 : RunState) (hd : parseDateArg dn env.nowDate = some d)
    (hdir : env.dirExists = true) (hexc : env.discoveryRaises = none)
    (hne : discoverCandidates fs (fmtDate d) ≠ [])
    (h200 : (merge_today_videos dn fs env st).response.statusCode = 200) :
    (merge_today_videos dn fs env st).response.output_file = some (fmtDate d ++ ".mp4")
    ∧ (∀ inv ∈ (merge_today_videos dn fs env st).trace,
        inv.output = STATICFILES_DIR ++ "/" ++ (fmtDate d ++ ".mp4"))
    ∧ ∃ n, (merge_today_videos dn fs env st).state.out
          = some ⟨(if stratSucceeds env.fastEnv = true then Method.fast else Method.sync),
              true, n⟩
        ∧ (merge_today_videos dn fs env st).response.output_size = some n
        ∧ (merge_today_videos dn fs env st2).state.out
            = (merge_today_videos dn fs env st).state.out
        ∧ (merge_today_videos dn fs env st2).response.output_size = some n := by
  cases hF : stratSucceeds env.fastEnv with
  | true =>
    obtain ⟨hc, hw, n, htr⟩ := (stratSucceeds_iff env.fastEnv).mp hF
    rw [run_fast_ok fs env st hd hdir hexc hne n hc hw htr,
      run_fast_ok fs env st2 hd hdir hexc hne n hc hw htr]
    refine ⟨rfl, ?_, n, by simp, rfl, rfl, rfl⟩
    intro inv hinv
    simp at hinv
    rw [hinv]
  | false =>
    cases hS : stratSucceeds env.syncEnv with
    | true =>
      obtain ⟨hc, hw, n, htr⟩ := (stratSucceeds_iff env.syncEnv).mp hS
      have h1 := run_fallback_ok fs env st hd hdir hexc hne n hF hc hw htr
      have h2 := run_fallback_ok fs env st2 hd hdir hexc hne n hF hc hw htr
      refine ⟨?_, ?_, n, ?_, ?_, ?_, ?_⟩
      · rw [h1.1]
      · intro inv hinv
        rw [h1.2.2] at hinv
        simp at hinv
        rcases hinv with h | h <;> rw [h]
      · rw [h1.2.1]
        simp [hF]
      · rw [h1.1]
      · rw [h1.2.1, h2.2.1]
      · rw [h2.1]
    | false =>
      have h := run_both_fail fs env st hd hdir hexc hne hF hS
      rw [h.1] at h200
      cases h200

/-- C7 witness: re-running over a world that already holds an old
9-byte output replaces it; the new run reports the new 42-byte file. -/
theorem C7_output_overwrite_witness :
    (merge_today_videos (some "2024-05-01")
        [⟨"a_2024-05-01.mp4", "a_2024-05-01.mp4", 1, 0⟩]
        ⟨⟨2024, 5, 1⟩, true, none, ⟨none, none, .ok 42⟩, ⟨none, none, .ok 1⟩⟩
        ⟨⟨5, []⟩, some ⟨.sync, true, 9⟩⟩).state.out = some ⟨.fast, true, 42⟩
    ∧ (merge_today_videos (some "2024-05-01")
        [⟨"a_2024-05-01.mp4", "a_2024-05-01.mp4", 1, 0⟩]
        ⟨⟨2024, 5, 1⟩, true, none, ⟨none, none, .ok 42⟩, ⟨none, none, .ok 1⟩⟩
        ⟨⟨5, []⟩, some ⟨.sync, true, 9⟩⟩).response.output_size = some 42 := by
  have h := C7_output_overwrite (some "2024-05-01") ⟨2024, 5, 1⟩
      [⟨"a_2024-05-01.mp4", "a_2024-05-01.mp4", 1, 0⟩]
      ⟨⟨2024, 5, 1⟩, true, none, ⟨none, none, .ok 42⟩, ⟨none, none, .ok 1⟩⟩
      ⟨⟨0, []⟩, none⟩ ⟨⟨5, []⟩, some ⟨.sync, true, 9⟩⟩
      (by decide) rfl rfl (by decide) (by decide)
  obtain ⟨h1, h2, n, h3, h4, h5, h6⟩ := h
  have hsz : (merge_today_videos (some "2024-05-01")
      [⟨"a_2024-05-01.mp4", "a_2024-05-01.mp4", 1, 0⟩]
      ⟨⟨2024, 5, 1⟩, true, none, ⟨none, none, .ok 42⟩, ⟨none, none, .ok 1⟩⟩
      ⟨⟨0, []⟩, none⟩).response.output_size = some 42 := by decide
  have hst : (merge_today_videos (some "2024-05-01")
      [⟨"a_2024-05-01.mp4", "a_2024-05-01.mp4", 1, 0⟩]
      ⟨⟨2024, 5, 1⟩, true, none, ⟨none, none, .ok 42⟩, ⟨none, none, .ok 1⟩⟩
      ⟨⟨0, []⟩, none⟩).state.out = some ⟨.fast, true, 42⟩ := by decide
  rw [h4] at hsz
  have hn : n = 42 := Option.some.inj hsz
  subst hn
  exact ⟨by rw [h5, hst], h6⟩

/-- After a successful date parse, a run answers 200, 404 or 500. -/
theorem run_status_parsed (dn : Option String) (d : Date) (fs : List Entry)
    (env : PipelineEnv) (st : RunState) (hd : parseDateArg dn env.nowDate = some d) :
    (merge_today_videos dn fs env st).response.statusCode = 200
    ∨ (merge_today_videos dn fs env st).response.statusCode = 404
    ∨ (merge_today_videos dn fs env st).response.statusCode = 500 := by
  cases hdir : env.dirExists with
  | false =>
    rw [run_noDir fs env st hd hdir]
    right
    left
    rfl
  | true =>
    cases hexc : env.discoveryRaises with
    | some m =>
      rw [run_discRaise fs env st hd hdir hexc]
      right
      right
      rfl
    | none =>
      by_cases hcand : discoverCandidates fs (fmtDate d) = []
      · rw [run_noCands fs env st hd hdir hexc hcand]
        right
        left
        rfl
      · rw [run_main fs env st hd hdir hexc hcand]
        cases hE : (merge_videos_fast env.fastEnv (discoverCandidates fs (fmtDate d))
            (STATICFILES_DIR ++ "/" ++ (fmtDate d ++ ".mp4")) st.scr st.out).1.isError
        · simp only [hE, Bool.false_eq_true, if_false, finishResponse_status]
          cases hE2 : (merge_videos_fast env.fastEnv (discoverCandidates fs (fmtDate d))
              (STATICFILES_DIR ++ "/" ++ (fmtDate d ++ ".mp4")) st.scr st.out).1.isError <;>
            simp [hE2]
        · simp only [hE, if_true, finishResponse_status]
          cases hS : (merge_videos_sync env.syncEnv (discoverCandidates fs (fmtDate d))
              (STATICFILES_DIR ++ "/" ++ (fmtDate d ++ ".mp4"))
              (merge_videos_fast env.fastEnv (discoverCandidates fs (fmtDate d))
                (STATICFILES_DIR ++ "/" ++ (fmtDate d ++ ".mp4")) st.scr st.out).2.1
              (merge_videos_fast env.fastEnv (discoverCandidates fs (fmtDate d))
                (STATICFILES_DIR ++ "/" ++ (fmtDate d ++ ".mp4")) st.scr
                st.out).2.2).1.isError <;>
            simp [hS]

/-- C8 (amended): the handler's response status on every input: 400
exactly when `date_now` is present and fails the (lenient) strptime
parse; after a successful parse, 404 when the source root is missing or
no candidate matches, 500 when the discovery loop raises or when both
strategies fail, 200 exactly when a strategy succeeds; the status is
always one of 200, 400, 404, 500 — being a total function, the handler
never lets an exception escape. -/
theorem C8_status_partition (dn : Option String) (fs : List Entry) (env : PipelineEnv)
    (st : RunState) :
    ((merge_today_videos dn fs env st).response.statusCode = 200
      ∨ (merge_today_videos dn fs env st).response.statusCode = 400
      ∨ (merge_today_videos dn fs env st).response.statusCode = 404
      ∨ (merge_today_videos dn fs env st).response.statusCode = 500)
    ∧ (∀ s, dn = some s → strptimeYmd s = none →
        (merge_today_videos dn fs env st).response
          = errResponse 400 "Invalid date format. Use YYYY-MM-DD")
    ∧ (∀ d, parseDateArg dn env.nowDate = some d →
        (env.dirExists = false →
          (merge_today_videos dn fs env st).response.statusCode = 404)
        ∧ (∀ m, env.dirExists = true → env.discoveryRaises = some m →
            (merge_today_videos dn fs env st).response.statusCode = 500)
        ∧ (env.dirExists = true → env.discoveryRaises = none →
            discoverCandidates fs (fmtDate d) = [] →
            (merge_today_videos dn fs env st).response.statusCode = 404)
        ∧ (env.dirExists = true → env.discoveryRaises = none →
            discoverCandidates fs (fmtDate d) ≠ [] →
            ((merge_today_videos dn fs env st).response.statusCode = 200
              ↔ (stratSucceeds env.fastEnv || stratSucceeds env.syncEnv) = true))) := by
  refine ⟨?_, ?_, ?_⟩
  · cases dn with
    | none =>
      have := run_status_parsed none env.nowDate fs env st rfl
      tauto
    | some s =>
      cases hp : strptimeYmd s with
      | none =>
        rw [run_badDate (some s) s fs env st rfl hp]
        right
        left
        rfl
      | some d =>
        have hd : parseDateArg (some s) env.nowDate = some d := hp
        have := run_status_parsed (some s) d fs env st hd
        tauto
  · intro s hdn hp
    rw [run_badDate dn s fs env st hdn hp]
  · intro d hd
    refine ⟨?_, ?_, ?_, ?_⟩
    · intro hdir
      rw [run_noDir fs env st hd hdir]
      rfl
    · intro m hdir hexc
      rw [run_discRaise fs env st hd hdir hexc]
      rfl
    · intro hdir hexc hcand
      rw [run_noCands fs env st hd hdir hexc hcand]
      rfl
    · intro hdir hexc hne
      rw [run_main fs env st hd hdir hexc hne]
      cases hF : stratSucceeds env.fastEnv with
      | true =>
        have hE : (merge_videos_fast env.fastEnv (discoverCandidates fs (fmtDate d))
            (STATICFILES_DIR ++ "/" ++ (fmtDate d ++ ".mp4")) st.scr st.out).1.isError
              = false := by
          rw [merge_videos_fast_isError, hF]
          rfl
        simp [hE, finishResponse_status]
      | false =>
        have hE : (merge_videos_fast env.fastEnv (discoverCandidates fs (fmtDate d))
            (STATICFILES_DIR ++ "/" ++ (fmtDate d ++ ".mp4")) st.scr st.out).1.isError
              = true := by
          rw [merge_videos_fast_isError, hF]
          rfl
        have hS := merge_videos_sync_isError env.syncEnv (discoverCandidates fs (fmtDate d))
          (STATICFILES_DIR ++ "/" ++ (fmtDate d ++ ".mp4"))
          (merge_videos_fast env.fastEnv (discoverCandidates fs (fmtDate d))
            (STATICFILES_DIR ++ "/" ++ (fmtDate d ++ ".mp4")) st.scr st.out).2.1
          (merge_videos_fast env.fastEnv (discoverCandidates fs (fmtDate d))
            (STATICFILES_DIR ++ "/" ++ (fmtDate d ++ ".mp4")) st.scr st.out).2.2
        simp only [hE, if_true, finishResponse_status, hS]
        cases hSy : stratSucceeds env.syncEnv <;> simp [hSy]

/-- C8 counterexample: `date_now = "2024-5-1"` is not of the strict form
`YYYY-MM-DD`, yet CPython's lenient strptime accepts it, so the handler
does not answer 400 — with the source root absent it answers 404. -/
theorem C8_counterexample :
    isStrictYmd "2024-5-1" = false
    ∧ strptimeYmd "2024-5-1" = some ⟨2024, 5, 1⟩
    ∧ (merge_today_videos (some "2024-5-1") []
        ⟨⟨2024, 5, 1⟩, false, none, ⟨none, none, .ok 1⟩, ⟨none, none, .ok 1⟩⟩
        ⟨⟨0, []⟩, none⟩).response.statusCode = 404 := by
  refine ⟨by decide, by decide, by decide⟩

/-- The `files` array built by `get_yesterday_files` for a yesterday
string: the matching files' dicts, sorted by name. -/
def yesterdayList (fs : List Entry) (ystr : String) : List YFile :=
  List.insertionSort yfileLe
    ((fs.filter (fun e => date_pattern_search e.name == some ystr)).map (mkYFile ystr))

/-- C9: for a valid (or absent) `date_now` whose date has a predecessor,
the endpoint answers 200 and the returned array is exactly the files
whose first embedded date equals the given-or-current date minus one
day, each carrying the name/path/date/size/size_kb/size_mb/modified
fields, sorted by filename; files with a different or absent embedded
date do not appear. -/
theorem C9_yesterday (dn : Option String) (nowDate : Date) (fs : List Entry) (d yd : Date)
    (hd : parseDateArg dn nowDate = some d) (hp : predDate d = some yd) :
    get_yesterday_files dn nowDate true fs
      = ⟨200, true, none, some (fmtDate d), some (fmtDate yd),
          some (yesterdayList fs (fmtDate yd)).length, some (yesterdayList fs (fmtDate yd))⟩
    ∧ (yesterdayList fs (fmtDate yd)).Sorted yfileLe
    ∧ (yesterdayList fs (fmtDate yd)).Perm
        ((fs.filter (fun e => date_pattern_search e.name == some (fmtDate yd))).map
          (mkYFile (fmtDate yd)))
    ∧ (∀ yf ∈ yesterdayList fs (fmtDate yd), ∃ e ∈ fs,
        date_pattern_search e.name = some (fmtDate yd) ∧ yf = mkYFile (fmtDate yd) e)
    ∧ (∀ e ∈ fs, date_pattern_search e.name = some (fmtDate yd) →
        mkYFile (fmtDate yd) e ∈ yesterdayList fs (fmtDate yd)) := by
  refine ⟨?_, List.sorted_insertionSort yfileLe _, List.perm_insertionSort yfileLe _,
    ?_, ?_⟩
  · unfold get_yesterday_files
    rw [hd]
    simp only [hp, yesterdayList]
    rfl
  · intro yf hyf
    have hmem : yf ∈ (fs.filter (fun e =>
        date_pattern_search e.name == some (fmtDate yd))).map (mkYFile (fmtDate yd)) :=
      (List.perm_insertionSort yfileLe _).mem_iff.mp hyf
    obtain ⟨e, he, heq⟩ := List.mem_map.mp hmem
    obtain ⟨hefs, hpred⟩ := List.mem_filter.mp he
    refine ⟨e, hefs, ?_, heq.symm⟩
    exact eq_of_beq hpred
  · intro e hefs hpred
    have : e ∈ fs.filter (fun e => date_pattern_search e.name == some (fmtDate yd)) :=
      List.mem_filter.mpr ⟨hefs, beq_iff_eq.mpr hpred⟩
    exact (List.perm_insertionSort yfileLe _).mem_iff.mpr (List.mem_map_of_mem _ this)

/-- C9 witness: a request for 2024-05-02 lists exactly the files dated
2024-05-01, sorted by name. -/
theorem C9_yesterday_witness :
    (get_yesterday_files (some "2024-05-02") ⟨2024, 5, 2⟩ true
        [⟨"b_2024-05-01.mp4", "b_2024-05-01.mp4", 10, 0⟩,
         ⟨"a_2024-05-01.mp4", "a_2024-05-01.mp4", 20, 0⟩,
         ⟨"c_2024-05-02.mp4", "c_2024-05-02.mp4", 30, 0⟩]).statusCode = 200
    ∧ (yesterdayList
        [⟨"b_2024-05-01.mp4", "b_2024-05-01.mp4", 10, 0⟩,
         ⟨"a_2024-05-01.mp4", "a_2024-05-01.mp4", 20, 0⟩,
         ⟨"c_2024-05-02.mp4", "c_2024-05-02.mp4", 30, 0⟩] "2024-05-01").map YFile.name
      = ["a_2024-05-01.mp4", "b_2024-05-01.mp4"] := by
  have h := C9_yesterday (some "2024-05-02") ⟨2024, 5, 2⟩
      [⟨"b_2024-05-01.mp4", "b_2024-05-01.mp4", 10, 0⟩,
       ⟨"a_2024-05-01.mp4", "a_2024-05-01.mp4", 20, 0⟩,
       ⟨"c_2024-05-02.mp4", "c_2024-05-02.mp4", 30, 0⟩]
      ⟨2024, 5, 2⟩ ⟨2024, 5, 1⟩ (by decide) (by decide)
  refine ⟨by rw [h.1], by decide⟩
